import Mathlib

/-!
Shallow embedding of the curriculum lens-design loop implemented by the
function curriculum_design in 2_autolens_rms.py.

Modelling conventions.
Real-valued tensors are embedded as functions into the rationals.  A
tensor of shape [M, M, spp, k] is embedded as a function
Fin G → ℕ → value, with G = M * M flattened field-point grid cells and
the sample axis indexed by naturals together with an explicit sample
count S used in every reduction.  An Option result models a Python
computation that can either die with an exception (ZeroDivisionError)
or produce a non-finite float (inf or NaN, which then propagates
through every later arithmetic step): none stands for both failure
modes, some q for a finite result q.  External engine calls (sampling,
tracing, psf_center) appear as function parameters.
-/

/-- Lens state touched by the evaluation checkpoint: aperture stop
radius, derived f-number and focal length.  Mirrors the fields
surfaces[aper_idx].r, fnum and foclen written on lines 121 and 122 of
the source. -/
structure LensState where
  r : ℚ
  fnum : ℚ
  foclen : ℚ
deriving DecidableEq

/-- Source line 97: aper_start is the radius of the aperture stop at
entry, called r1 here, times 0.4. -/
def aper_start (r1 : ℚ) : ℚ := r1 * 0.4

/-- Source lines 117 to 120: the aperture radius computed at an
evaluation boundary,
min((aper_final - aper_start) * (i / iterations * 1.1) + aper_start, aper_final),
where aper_final = r1 is the aperture stop radius read at entry on
line 98. -/
def aperRadius (r1 : ℚ) (iterations i : ℕ) : ℚ :=
  min ((r1 - aper_start r1) * ((i : ℚ) / (iterations : ℚ) * 1.1) + aper_start r1) r1

/-- Source lines 117 to 122, the checkpoint mutation of the lens.  In
Python the expression i / iterations raises ZeroDivisionError when
iterations = 0, and foclen / aper_r raises ZeroDivisionError when the
new radius is 0; both aborts are modelled by none.  Otherwise the
aperture stop radius is set to aperRadius and the f-number is
recomputed as foclen / aper_r / 2. -/
def evalCheckpoint (r1 : ℚ) (iterations i : ℕ) (lens : LensState) : Option LensState :=
  if iterations = 0 then none
  else
    let aper_r := aperRadius r1 iterations i
    if aper_r = 0 then none
    else some ⟨aper_r, lens.foclen / aper_r / 2, lens.foclen⟩

/-- Source line 115: the checkpoint runs exactly when i mod
test_per_iter = 0; on other iterations the lens is left unchanged by
the evaluation block. -/
def curriculumIter (r1 : ℚ) (iterations test_per_iter i : ℕ) (lens : LensState) : Option LensState :=
  if i % test_per_iter = 0 then evalCheckpoint r1 iterations i lens else some lens

/-- Source line 94: shape_control = True, a local constant of
curriculum_design. -/
def shape_control : Bool := true

/-- Source line 95: centroid = False, a local constant of
curriculum_design, never influenced by the caller. -/
def centroid : Bool := false

/-- Source line 96: sample_rays_per_iter = 5 * test_per_iter if
centroid else test_per_iter. -/
def sample_rays_per_iter (test_per_iter : ℕ) : ℕ :=
  if centroid then 5 * test_per_iter else test_per_iter

/-- Source lines 157 to 166: the method string passed to psf_center is
chosen by the centroid flag. -/
def psfCenterMethod : String := if centroid then "chief_ray" else "pinhole"

/-- Observable trace of one run of the curriculum loop, restricted to
the checkpoint side effects the spec talks about: the lens state, the
iteration indices at which a lens-state file plus analysis artifact
set is written (lines 132 to 138), the indices at which correct_shape
is called (lines 125 to 127) and the indices at which match_materials
is called (lines 129 to 130). -/
structure RunTrace where
  lens : LensState
  files : List ℕ
  corrections : List ℕ
  matMatches : List ℕ
deriving DecidableEq

/-- Source lines 113 to 138, the evaluation block of one loop
iteration.  At a boundary the aperture update runs first; if it aborts
the whole run aborts before any file is written or correction
performed.  correct_shape runs when i is positive and shape_control
holds; match_materials when i is positive and both material flags
hold; then the lens-state file and analysis artifacts for index i are
written. -/
def runStep (r1 : ℚ) (iterations test_per_iter : ℕ) (optim_mat match_mat : Bool)
    (st : RunTrace) (i : ℕ) : Option RunTrace :=
  if i % test_per_iter = 0 then
    match evalCheckpoint r1 iterations i st.lens with
    | none => none
    | some lens1 =>
        some ⟨lens1,
          st.files ++ [i],
          st.corrections ++ (if 0 < i ∧ shape_control then [i] else []),
          st.matMatches ++ (if 0 < i ∧ optim_mat ∧ match_mat then [i] else [])⟩
  else some st

/-- Source line 113: for i in range(iterations + 1), threading the
checkpoint side effects; a ZeroDivisionError at any step aborts the
run. -/
def curriculumRun (r1 : ℚ) (iterations test_per_iter : ℕ) (optim_mat match_mat : Bool)
    (lens0 : LensState) : Option RunTrace :=
  (List.range (iterations + 1)).foldlM
    (runStep r1 iterations test_per_iter optim_mat match_mat) ⟨lens0, [], [], []⟩

/-- Sum of the validity mask over the sample axis of one cell, the
tensor ray.ra.sum(-1) of lines 179 and 184. -/
def raSum (S : ℕ) {G : ℕ} (ra : Fin G → ℕ → ℚ) (g : Fin G) : ℚ :=
  ∑ s ∈ Finset.range S, ra g s

/-- Source line 175: xy_norm = (xy - center_p) * ray.ra.unsqueeze(-1),
the masked centered deviation of one traced position, componentwise on
the two sensor-plane coordinates. -/
def xyNorm {G : ℕ} (xy center : Fin G → ℕ → ℚ × ℚ) (ra : Fin G → ℕ → ℚ)
    (g : Fin G) (s : ℕ) : ℚ × ℚ :=
  (((xy g s).1 - (center g s).1) * ra g s, ((xy g s).2 - (center g s).2) * ra g s)

/-- Source line 178: (xy_norm ** 2).sum([-1, -2]), the squared
deviation summed over the coordinate and sample axes of one cell.  The
clone().detach() of the source only stops gradients and does not
change the value. -/
def sqDevSum (S : ℕ) {G : ℕ} (xy center : Fin G → ℕ → ℚ × ℚ) (ra : Fin G → ℕ → ℚ)
    (g : Fin G) : ℚ :=
  ∑ s ∈ Finset.range S,
    ((xyNorm xy center ra g s).1 ^ 2 + (xyNorm xy center ra g s).2 ^ 2)

/-- Source lines 178 to 180: the unnormalized per-cell weight, squared
deviation sum divided by the valid-ray count plus EPSILON. -/
def weightMask (S : ℕ) {G : ℕ} (eps : ℚ) (xy center : Fin G → ℕ → ℚ × ℚ)
    (ra : Fin G → ℕ → ℚ) (g : Fin G) : ℚ :=
  sqDevSum S xy center ra g / (raSum S ra g + eps)

/-- Source line 181: weight_mask.mean(), the mean of the unnormalized
weights over all G grid cells. -/
def wMean (S : ℕ) {G : ℕ} (eps : ℚ) (xy center : Fin G → ℕ → ℚ × ℚ)
    (ra : Fin G → ℕ → ℚ) : ℚ :=
  (∑ g : Fin G, weightMask S eps xy center ra g) / (G : ℚ)

/-- Source line 184: xy_norm.abs().sum(-1).sum(-1), the absolute
deviation summed over the coordinate and sample axes of one cell. -/
def absDevSum (S : ℕ) {G : ℕ} (xy center : Fin G → ℕ → ℚ × ℚ) (ra : Fin G → ℕ → ℚ)
    (g : Fin G) : ℚ :=
  ∑ s ∈ Finset.range S,
    (|(xyNorm xy center ra g s).1| + |(xyNorm xy center ra g s).2|)

/-- Source line 184, the expression inside torch.mean for one cell:
absolute deviation sum over the count plus EPSILON, times the
mean-normalized weight of the cell. -/
def cellTerm (S : ℕ) {G : ℕ} (eps : ℚ) (xy center : Fin G → ℕ → ℚ × ℚ)
    (ra : Fin G → ℕ → ℚ) (g : Fin G) : ℚ :=
  absDevSum S xy center ra g / (raSum S ra g + eps) *
    (weightMask S eps xy center ra g / wMean S eps xy center ra)

/-- Source lines 177 to 184: the spot-error loss of one wavelength.
none models a non-finite float result: a mean over an empty grid, a
zero denominator in a weight division, or a zero weight mean in the
in-place normalization weight_mask /= weight_mask.mean() all yield
NaN or inf in torch and poison the final mean. -/
def spotLossWv (S : ℕ) {G : ℕ} (eps : ℚ) (xy center : Fin G → ℕ → ℚ × ℚ)
    (ra : Fin G → ℕ → ℚ) : Option ℚ :=
  if G = 0 then none
  else if ∃ g : Fin G, raSum S ra g + eps = 0 then none
  else if wMean S eps xy center ra = 0 then none
  else some ((∑ g : Fin G, cellTerm S eps xy center ra g) / (G : ℚ))

/-- Source line 187: sum(loss_rms) / len(loss_rms); a non-finite
per-wavelength term poisons the aggregate, and an empty wavelength
list would divide by zero. -/
def combineMean (terms : List (Option ℚ)) : Option ℚ :=
  (terms.foldr
      (fun t acc =>
        match t, acc with
        | some a, some b => some (a + b)
        | _, _ => none)
      (some 0)).bind
    (fun s => if terms.length = 0 then none else some (s / (terms.length : ℚ)))

/-- Ray batch of one wavelength before tracing: origins and directions
indexed by flattened grid cell and sample index.  The wavelength
itself travels inside the batch, as in the source where
sample_point_source stores wvln on the returned rays. -/
structure RayBatch (G : ℕ) where
  o : Fin G → ℕ → ℚ × ℚ × ℚ
  d : Fin G → ℕ → ℚ × ℚ × ℚ

/-- Result of the external trace and project_to calls of lines 173 and
174: sensor-plane positions and the validity mask. -/
structure Traced (G : ℕ) where
  xy : Fin G → ℕ → ℚ × ℚ
  ra : Fin G → ℕ → ℚ

/-- Source lines 159 and 164: the argument ray.o[:, :, 0, :] handed to
psf_center, one representative origin per cell, the sample of index
0. -/
def psfCenterInput {G : ℕ} (o : Fin G → ℕ → ℚ × ℚ × ℚ) : Fin G → ℚ × ℚ × ℚ :=
  fun g => o g 0

/-- Source lines 163 to 166: center_p is the negated psf_center output
for the first-sample origins, then unsqueeze(-2).repeat(1, 1, spp, 1)
replicates it along the sample axis, embedded as a function constant
in the sample index. -/
def centerP {G : ℕ} (psfc : (Fin G → ℚ × ℚ × ℚ) → Fin G → ℚ × ℚ)
    (o : Fin G → ℕ → ℚ × ℚ × ℚ) : Fin G → ℕ → ℚ × ℚ :=
  fun g _ => (-(psfc (psfCenterInput o) g).1, -(psfc (psfCenterInput o) g).2)

/-- Modelled from the spec: WAVE_RGB is imported from the external
deeplens package and is the fixed ordered set of three wavelengths
approximating red, green and blue; only its length and order matter
for the claims, the numeric values stand in for the external
constants. -/
def WAVE_RGB : List ℚ := [0.656, 0.589, 0.486]

/-- Source lines 145 to 154: rays_backup starts empty and the loop
for wv in WAVE_RGB appends one sampled batch per wavelength; the loop
variable ray keeps the batch of the last wavelength after the loop,
tracked here as the second component. -/
def resampleLoop {β : Type} (sample : ℚ → β) : List β × Option β :=
  WAVE_RGB.foldl (fun acc wv => (acc.1 ++ [sample wv], some (sample wv))) ([], none)

/-- Python list indexing rays_backup[j], with a default value for the
out-of-range case that the source never hits. -/
def listGet {α : Type} (l : List α) (d : α) : ℕ → α :=
  fun j =>
    match l, j with
    | [], _ => d
    | a :: _, 0 => a
    | _ :: t, j + 1 => listGet t d j

/-- In-place store at one address of a heap of objects, used to model
that the external trace call mutates exactly the object passed to
it. -/
def setAt {α : Type} (l : List α) : ℕ → α → List α :=
  fun j y =>
    match l, j with
    | [], _ => []
    | _ :: t, 0 => y :: t
    | a :: t, j + 1 => a :: setAt t j y

/-- Source lines 172 and 173 for one wavelength index i: the heap h
holds the cached batches; ray = rays_backup[i].clone() allocates a
fresh copy at address h.length, and self.trace(ray) mutates the object
at that address in place through the external trace function f. -/
def cloneAndTrace {α : Type} (f : α → α) (d : α) (h : List α) (i : ℕ) : List α :=
  setAt (h ++ [listGet h d i]) h.length (f (listGet h d i))

/-- Source lines 170 to 173: one optimization step performs the
clone-and-trace for every wavelength index in order. -/
def spotTraceStep {α : Type} (f : α → α) (d : α) (h : List α) : List α :=
  (List.range WAVE_RGB.length).foldl (cloneAndTrace f d) h

/-- Several consecutive optimization steps between two resample
events, each running the per-wavelength clone-and-trace pass on the
heap. -/
def optimSteps {α : Type} (f : α → α) (d : α) : ℕ → List α → List α
  | 0, h => h
  | k + 1, h => optimSteps f d k (spotTraceStep f d h)

/-- Source lines 169 to 187: the per-iteration loss, given the cached
batches, the external trace-and-project function and one shared
reference-point tensor center, as the mean of the per-wavelength
spot losses. -/
def spotLossStep {G : ℕ} (S : ℕ) (eps : ℚ) (traceProj : RayBatch G → Traced G)
    (defaultB : RayBatch G) (backups : List (RayBatch G))
    (center : Fin G → ℕ → ℚ × ℚ) : Option ℚ :=
  combineMean
    ((List.range WAVE_RGB.length).map
      (fun j =>
        let t := traceProj (listGet backups defaultB j)
        spotLossWv S eps t.xy center t.ra))

/-- Source lines 141 to 187 restricted to one resample event followed
by one loss evaluation: sample all wavelengths, build center_p from
the leftover loop variable ray, then evaluate the loss of every
wavelength against that single reference-point tensor. -/
def iterLoss {G : ℕ} (S : ℕ) (eps : ℚ) (sample : ℚ → RayBatch G)
    (psfc : (Fin G → ℚ × ℚ × ℚ) → Fin G → ℚ × ℚ)
    (traceProj : RayBatch G → Traced G) (defaultB : RayBatch G) : Option ℚ :=
  match resampleLoop sample with
  | (backups, some ray) => spotLossStep S eps traceProj defaultB backups (centerP psfc ray.o)
  | (_, none) => none

/-- Refinement target written from the words of the claim: the
aperture radius min(r0 + (r1 - r0) * (i / iterations) * 1.1, r1) with
r0 = 0.4 * r1. -/
def aperRadiusClaimed (r1 : ℚ) (iterations i : ℕ) : ℚ :=
  min (0.4 * r1 + (r1 - 0.4 * r1) * ((i : ℚ) / (iterations : ℚ)) * 1.1) r1

/-- Concrete traced positions for witnesses: cell 0 centered, cell 1
displaced by one unit in the first coordinate. -/
def xyWit : Fin 2 → ℕ → ℚ × ℚ := fun g _ => if g.val = 0 then (0, 0) else (1, 0)

/-- Concrete reference points for witnesses: the origin for every cell
and sample. -/
def centerWit : Fin 2 → ℕ → ℚ × ℚ := fun _ _ => (0, 0)

/-- Concrete validity mask for witnesses: cell 0 has no valid ray,
cell 1 only valid rays. -/
def raWit : Fin 2 → ℕ → ℚ := fun g _ => if g.val = 0 then 0 else 1

/-- Concrete one-cell traced positions for counterexamples: every
position at the origin. -/
def xyZero : Fin 1 → ℕ → ℚ × ℚ := fun _ _ => (0, 0)

/-- Concrete one-cell validity mask with no valid ray anywhere. -/
def raZero : Fin 1 → ℕ → ℚ := fun _ _ => 0

/-- Concrete one-cell validity mask with every ray valid. -/
def raOne : Fin 1 → ℕ → ℚ := fun _ _ => 1

/-- Concrete one-cell traced positions for the unit-mean witness: one
unit off center in the first coordinate. -/
def xyOne : Fin 1 → ℕ → ℚ × ℚ := fun _ _ => (1, 0)

/-- C10: the local flag centroid is the constant False, so the
psf_center method is always pinhole (the chief_ray branch is
unreachable) and the resampling cadence sample_rays_per_iter always
equals test_per_iter, for every caller-supplied cadence. -/
theorem centroid_constant_pinhole_cadence (t : ℕ) :
    centroid = false ∧ psfCenterMethod = "pinhole" ∧ sample_rays_per_iter t = t :=
  ⟨rfl, rfl, rfl⟩

/-- C8: the reference point of each cell is the negated psf_center
result of that cell computed from the single representative origin of
sample index 0, and it is replicated along the sample axis, so every
two samples of a cell carry the same 2D reference point. -/
theorem center_point_first_sample_broadcast {G : ℕ}
    (psfc : (Fin G → ℚ × ℚ × ℚ) → Fin G → ℚ × ℚ)
    (o : Fin G → ℕ → ℚ × ℚ × ℚ) (g : Fin G) (s t : ℕ) :
    centerP psfc o g s =
      (-(psfc (fun x => o x 0) g).1, -(psfc (fun x => o x 0) g).2) ∧
    centerP psfc o g s = centerP psfc o g t :=
  ⟨rfl, rfl⟩

/-- C9: after the per-wavelength sampling loop the leftover loop
variable holds the batch of the last wavelength of WAVE_RGB, so the
reference-point tensor is computed from that single batch, and the
loss subtracts this one tensor from the traced positions of all
wavelengths; there is no per-wavelength reference point. -/
theorem center_from_last_wavelength {G : ℕ} (S : ℕ) (eps : ℚ)
    (sample : ℚ → RayBatch G) (psfc : (Fin G → ℚ × ℚ × ℚ) → Fin G → ℚ × ℚ)
    (traceProj : RayBatch G → Traced G) (defaultB : RayBatch G) :
    WAVE_RGB.getLast? = some 0.486 ∧
    iterLoss S eps sample psfc traceProj defaultB =
      spotLossStep S eps traceProj defaultB (WAVE_RGB.map sample)
        (centerP psfc (sample 0.486).o) :=
  ⟨rfl, rfl⟩

/-- C3 counterexample: with iterations = 0 and test_per_iter = 1 the
run does not perform a checkpoint at i = 0; it aborts with a
ZeroDivisionError from the expression i / iterations, so no run trace
with one written file exists. -/
theorem run_zero_iterations_counterexample :
    curriculumRun 5 0 1 false false ⟨5, 5, 50⟩ = none := rfl

/-- C3 amended: calling curriculum_design with iterations = 0 and
test_per_iter = 1 aborts at the i = 0 aperture update with a
ZeroDivisionError, for every entry radius, material flags and lens
state, before any aperture is set, correct_shape is called, or any
lens-state file or analysis artifact is written. -/
theorem run_zero_iterations_aborts (r1 : ℚ) (o m : Bool) (lens0 : LensState) :
    curriculumRun r1 0 1 o m lens0 = none := rfl

/-- C1: at every evaluation boundary (i mod test_per_iter = 0, with a
positive iteration budget and positive entry radius) the checkpoint
sets the aperture stop radius to min(r0 + (r1 - r0) * (i / iterations) * 1.1, r1)
with r0 = 0.4 * r1, and simultaneously sets the f-number to
foclen / (2 * r) for that new radius r. -/
theorem aperture_checkpoint_formula (r1 : ℚ) (iterations test_per_iter i : ℕ)
    (lens : LensState) (hit : 0 < iterations) (hr1 : 0 < r1)
    (hi : i % test_per_iter = 0) :
    curriculumIter r1 iterations test_per_iter i lens =
      some ⟨aperRadiusClaimed r1 iterations i,
        lens.foclen / (2 * aperRadiusClaimed r1 iterations i), lens.foclen⟩ := by
  have hq : (0 : ℚ) ≤ (i : ℚ) / (iterations : ℚ) :=
    div_nonneg (Nat.cast_nonneg i) (Nat.cast_nonneg iterations)
  have hprod : (0 : ℚ) ≤ (r1 - aper_start r1) * ((i : ℚ) / (iterations : ℚ) * 1.1) := by
    apply mul_nonneg
    · unfold aper_start; linarith
    · positivity
  have hpos : 0 < aperRadius r1 iterations i := by
    unfold aperRadius
    apply lt_min
    · unfold aper_start at *; linarith
    · exact hr1
  have heq : aperRadius r1 iterations i = aperRadiusClaimed r1 iterations i := by
    unfold aperRadius aperRadiusClaimed aper_start
    congr 1
    ring
  unfold curriculumIter evalCheckpoint
  rw [if_pos hi, if_neg hit.ne']
  simp only [if_neg hpos.ne']
  rw [heq]
  simp only [Option.some.injEq, LensState.mk.injEq]
  refine ⟨trivial, ?_, trivial⟩
  rw [div_div, mul_comm]

/-- C1 witness: the checkpoint at iteration 5 of a 10-iteration run
with cadence 5 on an entry radius 5 and focal length 50. -/
theorem aperture_checkpoint_formula_witness :
    curriculumIter 5 10 5 5 ⟨5, 5, 50⟩ =
      some ⟨aperRadiusClaimed 5 10 5, (50 : ℚ) / (2 * aperRadiusClaimed 5 10 5), 50⟩ :=
  aperture_checkpoint_formula 5 10 5 5 ⟨5, 5, 50⟩ (by decide) (by norm_num) (by decide)

/-- C2: over a run with a positive iteration budget and nonnegative
entry radius r1, the aperture radius schedule is monotonically
non-decreasing in the iteration index, never exceeds r1, and equals r1
exactly at i = iterations. -/
theorem aperture_schedule_monotone_bounded_final (r1 : ℚ) (iterations i j : ℕ)
    (hit : 0 < iterations) (hr1 : 0 ≤ r1) (hij : i ≤ j) :
    aperRadius r1 iterations i ≤ aperRadius r1 iterations j ∧
    aperRadius r1 iterations i ≤ r1 ∧
    aperRadius r1 iterations iterations = r1 := by
  have hitQ : (0 : ℚ) < (iterations : ℚ) := by exact_mod_cast hit
  have hc : (0 : ℚ) ≤ r1 - aper_start r1 := by unfold aper_start; linarith
  refine ⟨?_, ?_, ?_⟩
  · unfold aperRadius
    apply min_le_min _ le_rfl
    have h1 : (i : ℚ) / (iterations : ℚ) ≤ (j : ℚ) / (iterations : ℚ) :=
      (div_le_div_iff_of_pos_right hitQ).mpr (by exact_mod_cast hij)
    have h2 : (r1 - aper_start r1) * ((i : ℚ) / (iterations : ℚ) * 1.1) ≤
        (r1 - aper_start r1) * ((j : ℚ) / (iterations : ℚ) * 1.1) := by
      apply mul_le_mul_of_nonneg_left _ hc
      linarith
    linarith
  · unfold aperRadius
    exact min_le_right _ _
  · unfold aperRadius
    rw [div_self (ne_of_gt hitQ)]
    apply min_eq_right
    unfold aper_start
    nlinarith

/-- C2 witness: concrete schedule values for a run of 10 iterations at
entry radius 5. -/
theorem aperture_schedule_monotone_bounded_final_witness :
    aperRadius 5 10 3 ≤ aperRadius 5 10 7 ∧
    aperRadius 5 10 3 ≤ 5 ∧
    aperRadius 5 10 10 = 5 :=
  aperture_schedule_monotone_bounded_final 5 10 3 7 (by decide) (by norm_num) (by decide)

/-- C6: whenever the mean of the unnormalized per-cell weights is
nonzero (so the in-place normalization is defined) and the grid is
nonempty, the mean of the normalized per-cell weights over the grid is
exactly 1. -/
theorem normalized_weights_unit_mean {G : ℕ} (S : ℕ) (eps : ℚ)
    (xy center : Fin G → ℕ → ℚ × ℚ) (ra : Fin G → ℕ → ℚ)
    (hG : 0 < G) (hmean : wMean S eps xy center ra ≠ 0) :
    (∑ g : Fin G, weightMask S eps xy center ra g / wMean S eps xy center ra) / (G : ℚ)
      = 1 := by
  have hGQ : ((G : ℚ)) ≠ 0 := Nat.cast_ne_zero.mpr hG.ne'
  have hW : (∑ g : Fin G, weightMask S eps xy center ra g) ≠ 0 := by
    intro h0
    apply hmean
    unfold wMean
    rw [h0, zero_div]
  have key : (∑ g : Fin G, weightMask S eps xy center ra g) / wMean S eps xy center ra
      / (G : ℚ) = 1 := by
    unfold wMean
    rw [div_div_eq_mul_div, mul_comm, mul_div_assoc, div_self hW, mul_one, div_self hGQ]
  rw [← Finset.sum_div]
  exact key

/-- C6 witness: a one-cell grid with a single valid ray one unit off
center has normalized weight mean 1. -/
theorem normalized_weights_unit_mean_witness :
    (∑ g : Fin 1, weightMask 1 1 xyOne xyZero raOne g / wMean 1 1 xyOne xyZero raOne)
      / ((1 : ℕ) : ℚ) = 1 :=
  normalized_weights_unit_mean 1 1 xyOne xyZero raOne (by decide)
    (by norm_num [wMean, weightMask, sqDevSum, raSum, xyNorm, xyOne, xyZero, raOne,
      Fin.sum_univ_one, Finset.sum_range_one])

/-- C4 counterexample: a batch in which the only grid cell has zero
valid rays.  The two ray-count divisions are protected by EPSILON, yet
every unnormalized weight is then 0, the in-place normalization
divides by the zero weight mean, and the whole loss becomes NaN, so
the cell does not contribute a bounded non-NaN value to the
aggregate. -/
theorem all_empty_batch_loss_nan :
    spotLossWv 1 1 xyZero xyZero raZero = none := by
  have hmean : wMean 1 1 xyZero xyZero raZero = 0 := by
    norm_num [wMean, weightMask, sqDevSum, raSum, xyNorm, xyZero, raZero,
      Fin.sum_univ_one, Finset.sum_range_one]
  have hex : ¬∃ g : Fin 1, raSum 1 raZero g + 1 = 0 := by
    simp [raSum, raZero]
  unfold spotLossWv
  rw [if_neg (by norm_num), if_neg hex, if_pos hmean]

/-- C4 amended: both ray-count divisions add the same constant
EPSILON, so with a positive EPSILON and a 0-or-positive validity mask
they never divide by zero; and provided the mean of the unnormalized
per-cell weights is nonzero, the loss evaluates to a finite value in
which a cell with zero valid rays has denominator exactly EPSILON and
contributes exactly 0. -/
theorem empty_cell_zero_contribution {G : ℕ} (S : ℕ) (eps : ℚ)
    (xy center : Fin G → ℕ → ℚ × ℚ) (ra : Fin G → ℕ → ℚ) (g0 : Fin G)
    (heps : 0 < eps) (hval : ∀ g s, 0 ≤ ra g s) (hempty : ∀ s, ra g0 s = 0)
    (hmean : wMean S eps xy center ra ≠ 0) :
    (spotLossWv S eps xy center ra).isSome = true ∧
    raSum S ra g0 + eps = eps ∧
    cellTerm S eps xy center ra g0 = 0 := by
  have hG : G ≠ 0 := (Fin.pos g0).ne'
  have hden : ∀ g : Fin G, raSum S ra g + eps ≠ 0 := by
    intro g
    have h1 : 0 ≤ raSum S ra g := Finset.sum_nonneg (fun s _ => hval g s)
    have h2 : 0 < raSum S ra g + eps := by linarith
    exact h2.ne'
  have hra0 : raSum S ra g0 = 0 :=
    Finset.sum_eq_zero (fun s _ => hempty s)
  have habs : absDevSum S xy center ra g0 = 0 := by
    apply Finset.sum_eq_zero
    intro s _
    unfold xyNorm
    rw [hempty s]
    simp
  refine ⟨?_, ?_, ?_⟩
  · have hnex : ¬∃ g : Fin G, raSum S ra g + eps = 0 := by
      push_neg
      exact hden
    unfold spotLossWv
    rw [if_neg hG, if_neg hnex, if_neg hmean]
    rfl
  · rw [hra0, zero_add]
  · unfold cellTerm
    rw [habs, zero_div, zero_mul]

/-- C4 amended witness: two cells, the first with no valid ray and the
second with one valid ray one unit off center. -/
theorem empty_cell_zero_contribution_witness :
    (spotLossWv 1 1 xyWit centerWit raWit).isSome = true ∧
    raSum 1 raWit 0 + 1 = 1 ∧
    cellTerm 1 1 xyWit centerWit raWit 0 = 0 :=
  empty_cell_zero_contribution 1 1 xyWit centerWit raWit 0 (by norm_num)
    (by intro g s; dsimp only [raWit]; split <;> norm_num)
    (fun _ => rfl)
    (by norm_num [wMean, weightMask, sqDevSum, raSum, xyNorm, xyWit, centerWit, raWit,
      Fin.sum_univ_two, Finset.sum_range_one, Fin.val_zero, Fin.val_one])

/-- C5 counterexample: a one-cell batch in which every ray is valid
and every traced position equals the reference point.  The loss does
not evaluate to 0: every unnormalized weight is exactly 0, the weight
normalization divides by the zero weight mean, and the loss is
NaN. -/
theorem centered_batch_loss_counterexample :
    spotLossWv 1 1 xyZero xyZero raOne = none ∧
    spotLossWv 1 1 xyZero xyZero raOne ≠ some 0 := by
  have hmean : wMean 1 1 xyZero xyZero raOne = 0 := by
    norm_num [wMean, weightMask, sqDevSum, raSum, xyNorm, xyZero, raOne,
      Fin.sum_univ_one, Finset.sum_range_one]
  have hex : ¬∃ g : Fin 1, raSum 1 raOne g + 1 = 0 := by
    simp [raSum, raOne]
  have hnone : spotLossWv 1 1 xyZero xyZero raOne = none := by
    unfold spotLossWv
    rw [if_neg (by norm_num), if_neg hex, if_pos hmean]
  exact ⟨hnone, by rw [hnone]; simp⟩

/-- C5 amended: for a batch in which every ray is valid and every
traced position equals its reference point, every per-cell unweighted
error term is exactly 0, but the per-cell weight normalization divides
by the zero mean of the all-zero weights, so the loss evaluates to a
non-finite value (NaN), not to 0. -/
theorem centered_batch_loss_is_nan {G : ℕ} (S : ℕ) (eps : ℚ)
    (xy center : Fin G → ℕ → ℚ × ℚ) (ra : Fin G → ℕ → ℚ) (g0 : Fin G)
    (_heps : 0 < eps) (_hra : ∀ g s, ra g s = 1) (hxy : ∀ g s, xy g s = center g s) :
    spotLossWv S eps xy center ra = none ∧
    absDevSum S xy center ra g0 / (raSum S ra g0 + eps) = 0 := by
  have hsq : ∀ g : Fin G, sqDevSum S xy center ra g = 0 := by
    intro g
    apply Finset.sum_eq_zero
    intro s _
    unfold xyNorm
    rw [hxy g s]
    simp
  have habs : ∀ g : Fin G, absDevSum S xy center ra g = 0 := by
    intro g
    apply Finset.sum_eq_zero
    intro s _
    unfold xyNorm
    rw [hxy g s]
    simp
  have hwm : ∀ g : Fin G, weightMask S eps xy center ra g = 0 := by
    intro g
    unfold weightMask
    rw [hsq g, zero_div]
  have hmean : wMean S eps xy center ra = 0 := by
    unfold wMean
    rw [Finset.sum_eq_zero (fun g _ => hwm g), zero_div]
  constructor
  · unfold spotLossWv
    by_cases hG : G = 0
    · rw [if_pos hG]
    · rw [if_neg hG]
      by_cases hex : ∃ g : Fin G, raSum S ra g + eps = 0
      · rw [if_pos hex]
      · rw [if_neg hex, if_pos hmean]
  · rw [habs g0, zero_div]

/-- C5 amended witness: the concrete one-cell centered batch. -/
theorem centered_batch_loss_is_nan_witness :
    spotLossWv 1 1 xyZero xyZero raOne = none ∧
    absDevSum 1 xyZero xyZero raOne 0 / (raSum 1 raOne 0 + 1) = 0 :=
  centered_batch_loss_is_nan 1 1 xyZero xyZero raOne 0 (by norm_num)
    (fun _ _ => rfl) (fun _ _ => rfl)

theorem listGet_append_of_lt {α : Type} (l l2 : List α) (d : α) (j : ℕ)
    (hj : j < l.length) : listGet (l ++ l2) d j = listGet l d j := by
  induction l generalizing j with
  | nil => exact absurd hj (Nat.not_lt_zero j)
  | cons a t ih =>
    cases j with
    | zero => rfl
    | succ j => exact ih j (Nat.lt_of_succ_lt_succ hj)

theorem setAt_append_length {α : Type} (l : List α) (x y : α) :
    setAt (l ++ [x]) l.length y = l ++ [y] := by
  induction l with
  | nil => rfl
  | cons a t ih =>
    show a :: setAt (t ++ [x]) t.length y = a :: (t ++ [y])
    rw [ih]

theorem cloneAndTrace_spec {α : Type} (f : α → α) (d : α) (h : List α) (i : ℕ) :
    cloneAndTrace f d h i = h ++ [f (listGet h d i)] := by
  unfold cloneAndTrace
  exact setAt_append_length h (listGet h d i) (f (listGet h d i))

theorem foldl_cloneAndTrace_preserve {α : Type} (f : α → α) (d : α) (js : List ℕ)
    (j : ℕ) :
    ∀ h : List α, j < h.length →
      listGet (js.foldl (cloneAndTrace f d) h) d j = listGet h d j ∧
      h.length ≤ (js.foldl (cloneAndTrace f d) h).length := by
  induction js with
  | nil => exact fun h hj => ⟨rfl, le_refl _⟩
  | cons i js ih =>
    intro h hj
    have e1 : cloneAndTrace f d h i = h ++ [f (listGet h d i)] := cloneAndTrace_spec f d h i
    have hlen : h.length ≤ (cloneAndTrace f d h i).length := by
      rw [e1, List.length_append]
      exact Nat.le_add_right _ _
    have hj2 : j < (cloneAndTrace f d h i).length := Nat.lt_of_lt_of_le hj hlen
    obtain ⟨p1, p2⟩ := ih (cloneAndTrace f d h i) hj2
    have hfold : (i :: js).foldl (cloneAndTrace f d) h
        = js.foldl (cloneAndTrace f d) (cloneAndTrace f d h i) := rfl
    constructor
    · rw [hfold, p1, e1, listGet_append_of_lt h _ d j hj]
    · rw [hfold]
      exact le_trans hlen p2

theorem spotTraceStep_preserve {α : Type} (f : α → α) (d : α) (j : ℕ) (h : List α)
    (hj : j < h.length) :
    listGet (spotTraceStep f d h) d j = listGet h d j ∧
    h.length ≤ (spotTraceStep f d h).length :=
  foldl_cloneAndTrace_preserve f d (List.range WAVE_RGB.length) j h hj

theorem optimSteps_preserve {α : Type} (f : α → α) (d : α) (k j : ℕ) :
    ∀ h : List α, j < h.length →
      listGet (optimSteps f d k h) d j = listGet h d j ∧
      h.length ≤ (optimSteps f d k h).length := by
  induction k with
  | zero => exact fun h hj => ⟨rfl, le_refl _⟩
  | succ k ih =>
    intro h hj
    obtain ⟨q1, q2⟩ := spotTraceStep_preserve f d j h hj
    have hj2 : j < (spotTraceStep f d h).length := Nat.lt_of_lt_of_le hj q2
    obtain ⟨p1, p2⟩ := ih (spotTraceStep f d h) hj2
    have hstep : optimSteps f d (k + 1) h = optimSteps f d k (spotTraceStep f d h) := rfl
    exact ⟨by rw [hstep, p1, q1], by rw [hstep]; exact le_trans q2 p2⟩

/-- C7: every cached batch cell of the heap survives any number of
optimization steps unchanged: each step traces only freshly allocated
clones, so the cached object at any address allocated before the steps
holds exactly its original value afterwards, and hence is identical
across all steps between two consecutive resample events, for every
external trace behavior f. -/
theorem cached_rays_unchanged {α : Type} (f : α → α) (d : α) (k j : ℕ) (h : List α)
    (hj : j < h.length) :
    listGet (optimSteps f d k h) d j = listGet h d j :=
  (optimSteps_preserve f d k j h hj).1

/-- C7 witness: a two-object heap after two optimization steps with a
nontrivial trace function. -/
theorem cached_rays_unchanged_witness :
    listGet (optimSteps Nat.succ 0 2 [3, 4]) 0 1 = listGet [3, 4] 0 1 :=
  cached_rays_unchanged Nat.succ 0 2 1 [3, 4] (by decide)
